import Mathlib

/-!
Verification development for the data-generator web application.

The definitions below are a shallow embedding of the TypeScript sources:

* `src/unnamed/part_003` — `generateMockData` / `generateMockDataInBatches`
  (the batching mock generator: clamp to 1..50, batching threshold 15,
  batch size 5 or 10 by prompt length, 2 retries per batch, field
  reconciliation against the batch-1 field set);
* `src/app/api/generate-data/route.ts` — the non-streaming `POST` validation
  and routing, and the streaming handlers `handleStreamingRequest` /
  `streamMockDataGeneration` / `streamRealDataGeneration`;
* the real-data fetcher (`fetchRealData` classification step,
  `fallbackCategorization`, `extractKeywords`);
* `src/app/api/download-data/route.ts` — the download endpoint with its
  JSON/CSV/Excel branches.

External effects are modelled as explicit parameters: the generative-model
call `generateObject` becomes an oracle `Nat → Nat → Except String GenObject`
(batch index and attempt number to outcome), the JavaScript builtin
`JSON.parse` becomes a parameter `String → Option Row` (`none` models a parse
failure; a successful parse of an object literal yields its fields in
insertion order), and the real-data fetch becomes an
`Except String RealDataResult` value.  JavaScript semantics that matter to
the claims (falsy `0`/`NaN` in `||` defaults, `parseInt`, truthiness of
arrays, per-character string operations) are embedded explicitly.
-/

/-! ## JavaScript string helpers -/

/-- JavaScript whitespace (the characters of `\s` that occur in this code base). -/
def isWsJS (c : Char) : Bool :=
  c == ' ' || c == '\t' || c == '\n' || c == '\r' || c == '\x0b' || c == '\x0c'

/-- `String.prototype.toLowerCase` restricted to ASCII (all needles in the code are ASCII). -/
def lowerStr (s : String) : String := ⟨s.data.map Char.toLower⟩

/-- Build a string back from a character list. -/
def strOfChars (l : List Char) : String := ⟨l⟩

/-- Does `hay` start with `needle`? -/
def leadsWith : List Char → List Char → Bool
  | [], _ => true
  | _ :: _, [] => false
  | a :: as, b :: bs => a == b && leadsWith as bs

/-- Does `hay` contain `needle` as a contiguous run? -/
def hasSub (hay needle : List Char) : Bool :=
  leadsWith needle hay ||
    match hay with
    | [] => false
    | _ :: t => hasSub t needle

/-- `String.prototype.includes`. -/
def strIncludes (hay needle : String) : Bool := hasSub hay.data needle.data

/-- `String.prototype.split(' ')`: split at every single space, keeping empty segments. -/
def splitSp : List Char → List (List Char)
  | [] => [[]]
  | c :: t =>
    match splitSp t with
    | [] => [[]]
    | w :: ws => if c == ' ' then [] :: w :: ws else (c :: w) :: ws

/-- Worker for `split(/\s+/)`; the fuel is always `length + 1`, enough for the
whole input. -/
def splitRunsGo : Nat → List Char → List (List Char)
  | 0, _ => [[]]
  | fuel + 1, l =>
    let w := l.takeWhile (fun c => !isWsJS c)
    match l.dropWhile (fun c => !isWsJS c) with
    | [] => [w]
    | _ :: t => w :: splitRunsGo fuel (t.dropWhile isWsJS)

/-- `String.prototype.split(/\s+/)`: split at maximal whitespace runs,
keeping a leading/trailing empty segment like JavaScript does. -/
def splitRuns (l : List Char) : List (List Char) := splitRunsGo (l.length + 1) l

/-- Accumulate the decimal value of a digit run. -/
def parseDigits : List Char → Nat → Nat
  | [], acc => acc
  | c :: t, acc => parseDigits t (acc * 10 + (c.toNat - '0'.toNat))

/-- JavaScript `parseInt` on a string (decimal only; the code never passes a
radix or hex literals): skip leading whitespace, optional sign, then the
leading digit run; no digits means `NaN`, modelled as `none`. -/
def jsParseIntStr (s : String) : Option Int :=
  let l := s.data.dropWhile isWsJS
  match l with
  | '-' :: t =>
    let ds := t.takeWhile Char.isDigit
    if ds.isEmpty then none else some (-(parseDigits ds 0 : Int))
  | '+' :: t =>
    let ds := t.takeWhile Char.isDigit
    if ds.isEmpty then none else some (parseDigits ds 0 : Int)
  | _ =>
    let ds := l.takeWhile Char.isDigit
    if ds.isEmpty then none else some (parseDigits ds 0 : Int)

/-! ## Rows and cell values -/

/-- A scalar cell value of a generated row (the value kinds the code produces
and serializes; `vundef` models JavaScript `undefined`). -/
inductive CellVal
  | vstr (s : String)
  | vint (n : Int)
  | vbool (b : Bool)
  | vnull
  | vundef
deriving DecidableEq

/-- A row is a JavaScript object: field names with values, in insertion order. -/
abbrev Row := List (String × CellVal)

/-- `Object.keys`. -/
def rowKeys (r : Row) : List String := r.map (fun p => p.1)

/-- JavaScript `String(val)` for the cell values above. -/
def jsString : CellVal → String
  | .vstr s => s
  | .vint n => toString n
  | .vbool b => if b then "true" else "false"
  | .vnull => "null"
  | .vundef => "undefined"

/-! ## `src/unnamed/part_003`: the batching mock generator -/

/-- The object produced by one schema-constrained `generateObject` call:
field names (absent models `undefined`) and JSON-encoded row strings. -/
structure GenObject where
  fields : Option (List String)
  data : List String
deriving DecidableEq

/-- The generative model as an oracle: batch index and attempt number
(`retryCount` 0, 1, 2) to the call's outcome. -/
abbrev Oracle := Nat → Nat → Except String GenObject

/-- `JSON.parse(jsonStr)` with the code's catch: a string that fails to parse
becomes the degenerate row `{value: jsonStr}`. -/
def parseRow (parseJson : String → Option Row) (s : String) : Row :=
  match parseJson s with
  | some r => r
  | none => [("value", CellVal.vstr s)]

/-- The per-batch retry loop (`while retryCount <= maxRetries` with
`maxRetries = 2`): first success wins; if all three attempts fail, the last
attempt's error is re-thrown. -/
def runBatchAttempts (oracle : Oracle) (i : Nat) : Except String GenObject :=
  match oracle i 0 with
  | .ok o => .ok o
  | .error _ =>
    match oracle i 1 with
    | .ok o => .ok o
    | .error _ => oracle i 2

/-- `object.fields || Object.keys(parsedData[0] || {})` — note a present but
empty array is truthy in JavaScript, so the fallback fires only when
`fields` is absent. -/
def jsFields (fields : Option (List String)) (parsed : List Row) : List String :=
  match fields with
  | some f => f
  | none => rowKeys (parsed.headD [])

/-- First normalization pass: `fields.forEach(field => if (!(field in row)) row[field] = null)`
— missing fields are appended (in `fields` order) with value null. -/
def addMissingFields (fields : List String) (r : Row) : Row :=
  fields.foldl
    (fun acc f => if (rowKeys acc).contains f then acc else acc ++ [(f, CellVal.vnull)]) r

/-- Second normalization pass: `Object.keys(row).forEach(key => if (!fields.includes(key)) delete row[key])`. -/
def dropExtraFields (fields : List String) (r : Row) : Row :=
  r.filter (fun p => fields.contains p.1)

/-- Reconciliation of one row against the established field set
(backfill missing fields with null, then drop extra fields). -/
def normalizeRow (fields : List String) (r : Row) : Row :=
  dropExtraFields fields (addMissingFields fields r)

/-- The consistency check for a later batch: the key list of the batch's
FIRST row has the same length as the established fields and every one of its
keys is among them. -/
def batchFieldsMatch (fields : List String) (parsed : List Row) : Bool :=
  let currentFields := rowKeys (parsed.headD [])
  currentFields.length == fields.length && currentFields.all (fun f => fields.contains f)

/-- Processing of a batch after the first: rows are reconciled only when
the first-row consistency check fails. -/
def processLaterBatch (fields : List String) (parsed : List Row) : List Row :=
  if batchFieldsMatch fields parsed then parsed else parsed.map (normalizeRow fields)

/-- The message of the outer per-batch catch:
`Failed to generate batch ${i + 1}: ${error.message}`. -/
def mkBatchError (i : Nat) (msg : String) : String :=
  "Failed to generate batch " ++ toString (i + 1) ++ ": " ++ msg

/-- The result shape `{data, fields}` of the mock generator. -/
structure MockDataResult where
  data : List Row
  fields : List String
deriving DecidableEq

/-- The batch size: 5 for complex prompts (length > 200), otherwise 10. -/
def mockBatchSize (prompt : String) : Nat :=
  if prompt.length > 200 then 5 else 10

/-- `Math.ceil(totalRows / batchSize)`. -/
def mockBatchCount (prompt : String) (totalRows : Nat) : Nat :=
  (totalRows + mockBatchSize prompt - 1) / mockBatchSize prompt

/-- The sequential batch loop of `generateMockDataInBatches`, by the number of
remaining batches: per batch run the retry loop, fail the whole operation on
exhaustion or on an empty `data`, parse the JSON strings, establish the field
set from batch 1 and reconcile later batches against it, and append. -/
def batchesGo (parseJson : String → Option Row) (oracle : Oracle) :
    Nat → Nat → List Row → List String → Except String MockDataResult
  | 0, _, allData, fields => .ok ⟨allData, fields⟩
  | fuel + 1, i, allData, fields =>
    match runBatchAttempts oracle i with
    | .error e => .error (mkBatchError i e)
    | .ok o =>
      if o.data.isEmpty then
        .error (mkBatchError i
          ("Failed to generate batch " ++ toString (i + 1) ++ ". Please try a different description."))
      else
        let parsed := o.data.map (parseRow parseJson)
        if i == 0 then
          batchesGo parseJson oracle fuel (i + 1) (allData ++ parsed) (jsFields o.fields parsed)
        else
          batchesGo parseJson oracle fuel (i + 1) (allData ++ processLaterBatch fields parsed) fields

/-- `generateMockDataInBatches(prompt, totalRows)`. -/
def generateMockDataInBatches (parseJson : String → Option Row) (oracle : Oracle)
    (prompt : String) (totalRows : Nat) : Except String MockDataResult :=
  batchesGo parseJson oracle (mockBatchCount prompt totalRows) 0 [] []

/-- JavaScript `n || d` for numbers (`0` is falsy; `NaN` cannot reach this
point because the argument is an `Int`). -/
def jsOrInt (n d : Int) : Int := if n == 0 then d else n

/-- `Math.min(Math.max(1, rows || 10), 50)`. -/
def clamp50 (rows : Int) : Int := min (max 1 (jsOrInt rows 10)) 50

/-- `generateMockData(prompt, rows)` from `src/unnamed/part_003`: require the
credential, clamp the row count, batch when it exceeds 15, otherwise one
schema-constrained call (the oracle at batch 0, attempt 0), whose failure is
wrapped by the catch as `Mock data generation failed: ...`. -/
def generateMockData (parseJson : String → Option Row) (oracle : Oracle)
    (apiKeyPresent : Bool) (prompt : String) (rows : Int) : Except String MockDataResult :=
  if !apiKeyPresent then
    .error "Gemini API key not configured. Please add GOOGLE_API_KEY or GOOGLE_GENERATIVE_AI_API_KEY to your environment variables."
  else
    let rowCount := clamp50 rows
    if rowCount > 15 then
      generateMockDataInBatches parseJson oracle prompt rowCount.toNat
    else
      match oracle 0 0 with
      | .error e => .error ("Mock data generation failed: " ++ e)
      | .ok o =>
        if o.data.isEmpty then
          .error "Mock data generation failed: Failed to generate mock data. Please try a different description."
        else
          let parsed := o.data.map (parseRow parseJson)
          .ok ⟨parsed, jsFields o.fields parsed⟩

/-! ## `src/app/api/generate-data/route.ts`: the non-streaming POST -/

/-- The `rows` field of the request body: a number, a string, or absent. -/
inductive RowsField
  | num (n : Int)
  | str (s : String)
  | absent
deriving DecidableEq

/-- `parseInt(rows)`: `none` models `NaN`. -/
def parseIntJS : RowsField → Option Int
  | .num n => some n
  | .str s => jsParseIntStr s
  | .absent => none

/-- `x || d` over a possibly-`NaN` number: `NaN` and `0` both fall to the
default, so the result is never `NaN`. -/
def jsOrOpt (x : Option Int) (d : Int) : Option Int :=
  match x with
  | none => some d
  | some n => if n == 0 then some d else some n

/-- `Math.min(Math.max(1, parseInt(rows) || 10), 50)` with `NaN` (`none`)
propagation, mirroring that the subsequent `isNaN(rowCount)` check can only
see `none` here — which `jsOrOpt` never produces. -/
def rowCountJS (rows : RowsField) : Option Int :=
  (jsOrOpt (parseIntJS rows) 10).map (fun n => min (max 1 n) 50)

/-- `!prompt || typeof prompt !== 'string' || !prompt.trim()` negated:
the prompt is a present string with at least one non-whitespace character. -/
def promptValid : Option String → Bool
  | none => false
  | some s => s.data.any (fun c => !isWsJS c)

/-- The auto-detection disjunction routing a request to mock generation. -/
def shouldUseMockData (dataType : Option String) (prompt : String) : Bool :=
  dataType == some "mock" ||
  strIncludes (lowerStr prompt) "json records" ||
  strIncludes (lowerStr prompt) "fine-tune" ||
  strIncludes (lowerStr prompt) "llm" ||
  strIncludes (lowerStr prompt) "training data" ||
  strIncludes (lowerStr prompt) "instruction" ||
  strIncludes (lowerStr prompt) "chatbot" ||
  strIncludes (lowerStr prompt) "custom"

/-- How far the endpoint gets before handing off to a generator:
a 400 rejection, the 500 configuration error, or an invocation of the mock
generator or the real-data fetcher with a validated row count. -/
inductive RouteOutcome
  | badRequest (error : String) (details : String)
  | configError
  | mockInvoked (prompt : String) (rowCount : Int)
  | realInvoked (prompt : String) (rowCount : Int)
deriving DecidableEq

/-- The validation and routing portion of the non-streaming `POST` handler. -/
def generatePOST (apiKeyPresent : Bool) (dataType prompt : Option String)
    (rows : RowsField) : RouteOutcome :=
  match prompt with
  | none =>
    .badRequest "Please provide a valid data description"
      "Prompt is required and must be a non-empty string"
  | some p =>
    if !promptValid (some p) then
      .badRequest "Please provide a valid data description"
        "Prompt is required and must be a non-empty string"
    else
      match rowCountJS rows with
      | none =>
        .badRequest "Invalid row count" "Rows must be a valid number between 1 and 50"
      | some rowCount =>
        if shouldUseMockData dataType p then
          if !apiKeyPresent then .configError
          else .mockInvoked p rowCount
        else .realInvoked p rowCount

/-- The row count an invoked generator receives, if one was invoked. -/
def invokedRowCount : RouteOutcome → Option Int
  | .mockInvoked _ rc => some rc
  | .realInvoked _ rc => some rc
  | _ => none

/-! ## The streaming handlers of `route.ts` -/

/-- One newline-delimited JSON status event of the streaming response. -/
inductive StreamEvent
  | started (totalRows : Int)
  | batch (batchNumber totalBatches : Nat) (data : List Row) (fields : List String)
  | batchError (batchNumber : Nat) (error : String)
  | dataEvent (data : List Row) (source : String)
  | errorEvent (error : String)
  | completed
deriving DecidableEq

/-- The `{data, source}` result of the real-data fetcher. -/
structure RealDataResult where
  data : List Row
  source : String
deriving DecidableEq

/-- The streaming mock path generates 5 rows at a time. -/
def streamBatchSize : Nat := 5

/-- `Math.min(batchSize, totalRows - i * batchSize)`. -/
def streamCurrentBatchSize (totalRows i : Nat) : Nat :=
  min streamBatchSize (totalRows - i * streamBatchSize)

/-- `Math.ceil(totalRows / batchSize)` for the streaming mock path. -/
def mockStreamBatchCount (totalRows : Nat) : Nat :=
  (totalRows + streamBatchSize - 1) / streamBatchSize

/-- `streamMockDataGeneration`: one `generateMockData` call per batch; a
success enqueues a `batch` event, a failure enqueues a `batch_error` event,
and the loop continues either way (so the event list is a map over the batch
indices).  `orc i` is the model oracle seen by the i-th inner call. -/
def streamMockDataGeneration (parseJson : String → Option Row) (orc : Nat → Oracle)
    (apiKeyPresent : Bool) (prompt : String) (totalRows : Nat) : List StreamEvent :=
  (List.range (mockStreamBatchCount totalRows)).map (fun i =>
    match generateMockData parseJson (orc i) apiKeyPresent prompt
        (streamCurrentBatchSize totalRows i : Int) with
    | .ok result => .batch (i + 1) (mockStreamBatchCount totalRows) result.data result.fields
    | .error e => .batchError (i + 1) e)

/-- `streamRealDataGeneration`: one fetch, a `data` event on success, an
`error` status event on failure (not rethrown). -/
def streamRealDataGeneration (realResult : Except String RealDataResult) : List StreamEvent :=
  match realResult with
  | .ok result => [.dataEvent result.data result.source]
  | .error e => [.errorEvent e]

/-- `x || d` with the default chosen for both `NaN` and `0`. -/
def jsOrIntOpt (x : Option Int) (d : Int) : Int :=
  match x with
  | none => d
  | some n => if n == 0 then d else n

/-- The streaming handler's clamp: `Math.min(Math.max(1, parseInt(rows) || 10), 100)`. -/
def rowCountStream (rows : RowsField) : Int :=
  min (max 1 (jsOrIntOpt (parseIntJS rows) 10)) 100

/-- Outcome of `handleStreamingRequest`: a 400 JSON rejection before the
stream starts, or a 200 streaming response carrying its event sequence. -/
inductive StreamingOutcome
  | badRequest (error : String)
  | stream (status : Nat) (events : List StreamEvent)
deriving DecidableEq

/-- `handleStreamingRequest`: validate the prompt, clamp the row count to
1..100, then emit `started`, the mock- or real-path events, and `completed`.
The response status is the `Response` default 200 regardless of what the
body events report. -/
def handleStreamingRequest (parseJson : String → Option Row) (orc : Nat → Oracle)
    (realResult : Except String RealDataResult) (apiKeyPresent : Bool)
    (dataType prompt : Option String) (rows : RowsField) : StreamingOutcome :=
  match prompt with
  | none => .badRequest "Please provide a valid data description"
  | some p =>
    if !promptValid (some p) then
      .badRequest "Please provide a valid data description"
    else
      let rowCount := rowCountStream rows
      let body :=
        if dataType == some "mock" then
          streamMockDataGeneration parseJson orc apiKeyPresent p rowCount.toNat
        else
          streamRealDataGeneration realResult
      .stream 200 (.started rowCount :: body ++ [.completed])

/-- The HTTP status of a streaming outcome. -/
def streamStatus : StreamingOutcome → Nat
  | .badRequest _ => 400
  | .stream s _ => s

/-- The emitted events of a streaming outcome. -/
def streamEvents : StreamingOutcome → List StreamEvent
  | .badRequest _ => []
  | .stream _ es => es

/-! ## The real-data fetcher's classification step -/

/-- The `RequestIntent` produced by classification. -/
structure Intent where
  category : String
  specificRequest : String
  keywords : List String
deriving DecidableEq

/-- `extractKeywords(text, relevantWords)`: lower-case, split at whitespace
runs, keep words containing a relevant word or longer than 4 characters,
de-duplicate keeping first occurrences (`[...new Set(...)]`), first 5. -/
def extractKeywords (text : String) (relevantWords : List String) : List String :=
  let words := (splitRuns (lowerStr text).data).map strOfChars
  let keywords := words.filter (fun word =>
    relevantWords.any (fun relevant => strIncludes word relevant) || word.length > 4)
  keywords.eraseDups.take 5

/-- `fallbackCategorization(prompt)`: the deterministic substring heuristic
over the lower-cased prompt, defaulting to category `general` with the
prompt's words longer than 3 characters (first 5) as keywords. -/
def fallbackCategorization (prompt : String) : Intent :=
  let lowerPrompt := lowerStr prompt
  if strIncludes lowerPrompt "stock" || strIncludes lowerPrompt "finance" ||
      strIncludes lowerPrompt "market" || strIncludes lowerPrompt "crypto" ||
      strIncludes lowerPrompt "bitcoin" then
    { category :=
        if strIncludes lowerPrompt "crypto" || strIncludes lowerPrompt "bitcoin" then
          "crypto"
        else "finance"
      specificRequest := prompt
      keywords := extractKeywords prompt
        ["stock", "finance", "market", "crypto", "bitcoin", "price", "trading"] }
  else if strIncludes lowerPrompt "weather" || strIncludes lowerPrompt "temperature" ||
      strIncludes lowerPrompt "climate" then
    { category := "weather"
      specificRequest := prompt
      keywords := extractKeywords prompt
        ["weather", "temperature", "climate", "rain", "wind", "humidity"] }
  else if strIncludes lowerPrompt "news" || strIncludes lowerPrompt "article" ||
      strIncludes lowerPrompt "headline" then
    { category := "news"
      specificRequest := prompt
      keywords := extractKeywords prompt ["news", "article", "headline", "breaking", "story"] }
  else if strIncludes lowerPrompt "sport" || strIncludes lowerPrompt "game" ||
      strIncludes lowerPrompt "team" || strIncludes lowerPrompt "player" then
    { category := "sports"
      specificRequest := prompt
      keywords := extractKeywords prompt ["sport", "game", "team", "player", "score", "match"] }
  else
    { category := "general"
      specificRequest := prompt
      keywords := (((splitSp prompt.data).filter (fun w => w.length > 3)).take 5).map strOfChars }

/-- The classification step at the top of `fetchRealData`: with no credential
go straight to the fallback; with a credential use the model's intent, and on
any model failure (the catch) fall back.  `modelResult` is the outcome of the
`generateObject` categorization call. -/
def fetchRealDataClassify (apiKeyPresent : Bool) (modelResult : Except String Intent)
    (prompt : String) : Intent :=
  if apiKeyPresent then
    match modelResult with
    | .ok intent => intent
    | .error _ => fallbackCategorization prompt
  else
    fallbackCategorization prompt

/-- Every substring needle tested by `fallbackCategorization`'s category guards. -/
def categoryNeedles : List String :=
  ["stock", "finance", "market", "crypto", "bitcoin",
   "weather", "temperature", "climate",
   "news", "article", "headline",
   "sport", "game", "team", "player"]

/-- No category guard of the heuristic fires on this prompt. -/
def noCategoryKeyword (prompt : String) : Bool :=
  categoryNeedles.all (fun n => !strIncludes (lowerStr prompt) n)

/-! ## `src/app/api/download-data/route.ts` -/

/-- CSV escaping of one value: `String(val).replace(/"/g, '""')` at the
character level. -/
def escQuotesL (l : List Char) : List Char :=
  l.flatMap (fun c => if c == '"' then ['"', '"'] else [c])

/-- One CSV cell: `'""'` for null/undefined, otherwise the escaped string
rendering wrapped in double quotes. -/
def csvCellL : CellVal → List Char
  | .vnull => ['"', '"']
  | .vundef => ['"', '"']
  | v => '"' :: (escQuotesL (jsString v).data ++ ['"'])

/-- `Array.prototype.join` with a one-character separator. -/
def joinWith (sep : Char) : List (List Char) → List Char
  | [] => []
  | [x] => x
  | x :: y :: t => x ++ sep :: joinWith sep (y :: t)

/-- One CSV data line: `Object.values(row).map(quote).join(",")`. -/
def rowLineL (r : Row) : List Char := joinWith ',' (r.map (fun p => csvCellL p.2))

/-- The header line: `Object.keys(data[0]).join(",")` — field names are NOT quoted. -/
def headerL (rows : List Row) : List Char :=
  joinWith ',' ((rows.headD []).map (fun p => p.1.data))

/-- The full CSV payload: `[headers, ...rows].join("\n")`. -/
def csvContent (rows : List Row) : String :=
  strOfChars (joinWith '\n' (headerL rows :: rows.map rowLineL))

/-- Join with a multi-character separator. -/
def joinL (sep : List Char) : List (List Char) → List Char
  | [] => []
  | [x] => x
  | x :: y :: t => x ++ sep ++ joinL sep (y :: t)

/-- JSON string escaping (the escapes relevant to the modelled cell values). -/
def jsonEscChar (c : Char) : List Char :=
  if c == '"' then ['\\', '"']
  else if c == '\\' then ['\\', '\\']
  else if c == '\n' then ['\\', 'n']
  else if c == '\r' then ['\\', 'r']
  else if c == '\t' then ['\\', 't']
  else [c]

/-- A JSON string literal. -/
def jsonStrL (s : String) : List Char := '"' :: (s.data.flatMap jsonEscChar ++ ['"'])

/-- A JSON value for one cell (`JSON.stringify` renders `null` for both null
and undefined array elements; undefined-valued object entries are skipped in
`jsonRowL`). -/
def jsonCellL : CellVal → List Char
  | .vstr s => jsonStrL s
  | .vint n => (toString n).data
  | .vbool b => if b then "true".data else "false".data
  | .vnull => "null".data
  | .vundef => "null".data

/-- One row as pretty-printed JSON (`JSON.stringify(data, null, 2)` object
layout at nesting depth 1). -/
def jsonRowL (r : Row) : List Char :=
  let entries := (r.filter (fun p => p.2 ≠ CellVal.vundef)).map
    (fun p => "    ".data ++ jsonStrL p.1 ++ ": ".data ++ jsonCellL p.2)
  if entries.isEmpty then [Char.ofNat 123, Char.ofNat 125]
  else [Char.ofNat 123, '\n'] ++ joinL (",\n").data entries ++ ['\n', ' ', ' ', Char.ofNat 125]

/-- `JSON.stringify(data, null, 2)` for the array of rows. -/
def jsonContent (rows : List Row) : String :=
  if rows.isEmpty then "[]"
  else strOfChars ('[' :: '\n' :: (joinL (",\n").data (rows.map jsonRowL) ++ ['\n', ']']))

/-- Is this character in `[a-zA-Z0-9]` (the complement of the sanitizer's
`/[^a-z0-9]/gi`)? -/
def isAsciiAlnumJS (c : Char) : Bool :=
  ('a' ≤ c && c ≤ 'z') || ('A' ≤ c && c ≤ 'Z') || ('0' ≤ c && c ≤ '9')

/-- `prompt?.slice(0, 30).replace(/[^a-z0-9]/gi, "-").toLowerCase() || "data"`. -/
def sanitizePrompt : Option String → String
  | none => "data"
  | some s =>
    let t := (s.data.take 30).map (fun c => if isAsciiAlnumJS c then c.toLower else '-')
    if t.isEmpty then "data" else strOfChars t

/-- The download request body. -/
structure DownloadRequest where
  data : Option (List Row)
  format : Option String
  prompt : Option String

/-- The download response: a 400 JSON error or a file payload. -/
inductive DownloadResponse
  | jsonError (status : Nat) (error : String)
  | file (content : String) (contentType : String) (filename : String)
deriving DecidableEq

/-- The Excel content type used by the default branch. -/
def excelContentType : String :=
  "application/vnd.openxmlformats-officedocument.spreadsheetml.sheet"

/-- The `POST` handler of `src/app/api/download-data/route.ts`.  The final
`else` branch repeats the CSV construction of the `csv` branch verbatim in
the source, so both use `csvContent` here. -/
def downloadPOST (req : DownloadRequest) : DownloadResponse :=
  match req.data with
  | none => .jsonError 400 "No data to download"
  | some rows =>
    if rows.length == 0 then .jsonError 400 "No data to download"
    else
      let sanitized := sanitizePrompt req.prompt
      if req.format == some "json" then
        .file (jsonContent rows) "application/json" (sanitized ++ ".json")
      else if req.format == some "csv" then
        .file (csvContent rows) "text/csv" (sanitized ++ ".csv")
      else
        .file (csvContent rows) excelContentType (sanitized ++ ".xlsx")

/-! ## A standard CSV reader (RFC-4180 style, used to state the round-trip
property of the CSV the download endpoint writes) -/

/-- Inside-quotes scanner.  The flag records whether the previous character
was an unescaped double quote: a following quote is a doubled (escaped)
quote, anything else closes the field. -/
def pqGo : Bool → List Char → List Char × List Char
  | false, [] => ([], [])
  | false, c :: t =>
    if c == '"' then pqGo true t
    else
      let p := pqGo false t
      (c :: p.1, p.2)
  | true, [] => ([], [])
  | true, c :: t =>
    if c == '"' then
      let p := pqGo false t
      ('"' :: p.1, p.2)
    else ([], c :: t)

/-- Parse the body of a quoted field (after its opening quote): the field
content and the input after the closing quote. -/
def parseQuoted (l : List Char) : List Char × List Char := pqGo false l

/-- Parse an unquoted field: everything up to a comma, newline, or the end. -/
def parseUnquoted : List Char → List Char × List Char
  | [] => ([], [])
  | c :: t =>
    if c == ',' || c == '\n' then ([], c :: t)
    else
      let p := parseUnquoted t
      (c :: p.1, p.2)

/-- Does the input start with a double quote? -/
def headIsQuote : List Char → Bool
  | [] => false
  | c :: _ => c == '"'

/-- Parse one field: a quoted field when the input starts with a quote
(leniently appending any stray characters before the next delimiter, as
permissive readers do), otherwise an unquoted field. -/
def parseField (l : List Char) : List Char × List Char :=
  if headIsQuote l then
    let q := parseQuoted l.tail
    let u := parseUnquoted q.2
    (q.1 ++ u.1, u.2)
  else parseUnquoted l

/-- The remaining input of the quote scanner never grows. -/
theorem pqGo_rest_length (b : Bool) (l : List Char) : (pqGo b l).2.length ≤ l.length := by
  induction l generalizing b with
  | nil => cases b <;> simp [pqGo]
  | cons c t ih =>
    cases b with
    | false =>
      by_cases h : c == '"'
      · simpa [pqGo, h] using Nat.le_succ_of_le (ih true)
      · simpa [pqGo, h] using Nat.le_succ_of_le (ih false)
    | true =>
      by_cases h : c == '"'
      · simpa [pqGo, h] using Nat.le_succ_of_le (ih false)
      · simp [pqGo, h]

/-- The remaining input of the unquoted-field scanner never grows. -/
theorem parseUnquoted_rest_length (l : List Char) : (parseUnquoted l).2.length ≤ l.length := by
  induction l with
  | nil => simp [parseUnquoted]
  | cons c t ih =>
    by_cases h : c == ',' || c == '\n'
    · simp [parseUnquoted, h]
    · simpa [parseUnquoted, h] using Nat.le_succ_of_le ih

/-- The remaining input after one field never grows. -/
theorem parseField_rest_length (l : List Char) : (parseField l).2.length ≤ l.length := by
  unfold parseField
  by_cases h : headIsQuote l
  · simp only [h, if_pos]
    calc (parseUnquoted (parseQuoted l.tail).2).2.length
        ≤ (parseQuoted l.tail).2.length := parseUnquoted_rest_length _
      _ ≤ l.tail.length := pqGo_rest_length false l.tail
      _ ≤ l.length := by cases l <;> simp
  · simpa [h] using parseUnquoted_rest_length l

/-- Parse one record: its fields and, when the record was ended by a newline,
the input after that newline (`none` when the input was exhausted). -/
def parseRecord (l : List Char) : List (List Char) × Option (List Char) :=
  let f := parseField l
  match h : f.2 with
  | ',' :: t =>
    let r := parseRecord t
    (f.1 :: r.1, r.2)
  | '\n' :: t => ([f.1], some t)
  | _ => ([f.1], none)
termination_by l.length
decreasing_by
  have hle := parseField_rest_length l
  rw [h] at hle
  simp at hle
  omega

/-- Helper for the record-list parser's termination: a record's continuation
is strictly shorter than its input. -/
theorem parseRecord_rest_length_aux :
    ∀ n, ∀ l : List Char, l.length ≤ n → ∀ t, (parseRecord l).2 = some t → t.length < l.length := by
  intro n
  induction n with
  | zero =>
    intro l hl t h
    have hnil : l = [] := by
      cases l with
      | nil => rfl
      | cons c cs => simp at hl
    subst hnil
    rw [parseRecord] at h
    simp [parseField, headIsQuote, parseUnquoted] at h
  | succ n ihn =>
    intro l hl t h
    rw [parseRecord] at h
    split at h
    · rename_i t' heq
      simp only at h
      have hle := parseField_rest_length l
      rw [heq] at hle
      simp at hle
      have := ihn t' (by omega) t h
      omega
    · rename_i t' heq
      simp only [Option.some.injEq] at h
      subst h
      have hle := parseField_rest_length l
      rw [heq] at hle
      simp at hle
      omega
    · simp at h

/-- A record's continuation is strictly shorter than its input. -/
theorem parseRecord_rest_length (l t : List Char) (h : (parseRecord l).2 = some t) :
    t.length < l.length :=
  parseRecord_rest_length_aux l.length l le_rfl t h

/-- Parse a whole CSV text into records. -/
def parseCsvRecords (l : List Char) : List (List (List Char)) :=
  let r := parseRecord l
  match h : r.2 with
  | none => [r.1]
  | some t => r.1 :: parseCsvRecords t
termination_by l.length
decreasing_by
  exact parseRecord_rest_length l t h

/-- The standard CSV reader over a string: records of string fields. -/
def parseCsv (s : String) : List (List String) :=
  (parseCsvRecords s.data).map (fun rec => rec.map strOfChars)

/-- The string a CSV cell of the download endpoint denotes: the empty string
for null/undefined, otherwise `String(val)`. -/
def renderCell : CellVal → String
  | .vnull => ""
  | .vundef => ""
  | v => jsString v

/-- The rendered cells of one row, in insertion order. -/
def renderRow (r : Row) : List String := r.map (fun p => renderCell p.2)

/-- The rendered cells of one row at the character level. -/
def renderRowL (r : Row) : List (List Char) := r.map (fun p => (renderCell p.2).data)

/-- A header field name the unquoted header line can carry faithfully:
no double quote, no comma, no newline. -/
def goodKey (k : String) : Bool :=
  k.data.all (fun c => !(c == '"') && !(c == ',') && !(c == '\n'))

/-! ## Support definitions for concrete instances -/

/-- Did the retry loop of batch `j` produce a non-empty object? -/
def batchOk (oracle : Oracle) (j : Nat) : Bool :=
  match runBatchAttempts oracle j with
  | .ok o => !o.data.isEmpty
  | .error _ => false

/-- A concrete `JSON.parse` model keyed on three fixed strings. -/
def c1Parse : String → Option Row := fun s =>
  if s == "s1" then some [("a", CellVal.vnull)]
  else if s == "s2" then some [("a", CellVal.vnull)]
  else if s == "s3" then some [("a", CellVal.vnull), ("b", CellVal.vnull)]
  else none

/-- A concrete model oracle: batch 1 establishes field `a`; batch 2 returns a
first row matching it and a second row with an extra field. -/
def c1Oracle : Oracle := fun i _ =>
  if i == 0 then .ok ⟨some ["a"], ["s1"]⟩
  else .ok ⟨some ["ignored"], ["s2", "s3"]⟩

/-- A concrete model oracle returning two row strings with fields `["name"]`. -/
def c2Oracle : Oracle := fun _ _ => .ok ⟨some ["name"], ["x", "y"]⟩

/-- The result `generateMockData` produces under `c2Oracle` when asked for 3 rows. -/
def c2Res : MockDataResult :=
  ⟨[[("value", CellVal.vstr "x")], [("value", CellVal.vstr "y")]], ["name"]⟩

/-- A concrete oracle whose batch 1 succeeds and whose batch 2 fails all
three attempts, the last with message `boom`. -/
def c5Oracle : Oracle := fun i t =>
  if i == 0 then .ok ⟨some ["a"], ["s"]⟩
  else .error (if t == 2 then "boom" else "early")

/-- A concrete streaming-path oracle family: every inner model call of batch
`i` fails with message `b0` / `b1`. -/
def c10Orc : Nat → Oracle := fun i _ _ => .error (if i == 0 then "b0" else "b1")

/-! ## Claim C1: field reconciliation in batched generation -/

theorem rowKeys_append (r s : Row) : rowKeys (r ++ s) = rowKeys r ++ rowKeys s := by
  simp [rowKeys]

theorem addMissingFields_cons (f : String) (fs : List String) (r : Row) :
    addMissingFields (f :: fs) r =
      addMissingFields fs
        (if (rowKeys r).contains f then r else r ++ [(f, CellVal.vnull)]) := by
  simp [addMissingFields]

/-- `addMissingFields` never removes a key. -/
theorem keys_subset_addMissingFields (fields : List String) (r : Row) :
    ∀ k ∈ rowKeys r, k ∈ rowKeys (addMissingFields fields r) := by
  induction fields generalizing r with
  | nil => intro k hk; simpa [addMissingFields] using hk
  | cons f fs ih =>
    intro k hk
    rw [addMissingFields_cons]
    apply ih
    split
    · exact hk
    · rw [rowKeys_append]
      exact List.mem_append_left _ hk

/-- After `addMissingFields`, every requested field is a key. -/
theorem fields_subset_addMissingFields (fields : List String) (r : Row) :
    ∀ f ∈ fields, f ∈ rowKeys (addMissingFields fields r) := by
  induction fields generalizing r with
  | nil => intro f hf; simp at hf
  | cons g gs ih =>
    intro f hf
    rw [addMissingFields_cons]
    rcases List.mem_cons.mp hf with hfg | hfs
    · subst hfg
      apply keys_subset_addMissingFields
      split
      · rename_i h
        simpa using h
      · rw [rowKeys_append]
        simp [rowKeys]
    · exact ih _ f hfs

/-- Every key of a reconciled row is among the established fields. -/
theorem keys_normalizeRow_subset (fields : List String) (r : Row) :
    ∀ k ∈ rowKeys (normalizeRow fields r), k ∈ fields := by
  intro k hk
  simp only [normalizeRow, dropExtraFields, rowKeys, List.mem_map] at hk
  obtain ⟨p, hp, rfl⟩ := hk
  have := (List.mem_filter.mp hp).2
  simpa using this

/-- Every established field is a key of a reconciled row. -/
theorem fields_subset_normalizeRow (fields : List String) (r : Row) :
    ∀ f ∈ fields, f ∈ rowKeys (normalizeRow fields r) := by
  intro f hf
  have hmem : f ∈ rowKeys (addMissingFields fields r) :=
    fields_subset_addMissingFields fields r f hf
  simp only [rowKeys, List.mem_map] at hmem
  obtain ⟨p, hp, rfl⟩ := hmem
  simp only [normalizeRow, dropExtraFields, rowKeys, List.mem_map]
  refine ⟨p, List.mem_filter.mpr ⟨hp, ?_⟩, rfl⟩
  simpa using hf

/-- C1: the claim is false as stated — reconciliation of a later batch is
gated on that batch's FIRST row only.  The amended property: a later batch
whose first-row key list passes the consistency check is appended unmodified
(its other rows may introduce or omit fields), and when the check fails,
every row of the batch is normalized so that its key set equals the
established field set (missing fields backfilled with null, extra fields
dropped). -/
theorem c1_batch_reconciliation (fields : List String) (parsed : List Row) :
    (batchFieldsMatch fields parsed = true → processLaterBatch fields parsed = parsed) ∧
    (batchFieldsMatch fields parsed = false →
      ∀ r ∈ processLaterBatch fields parsed,
        (∀ k ∈ rowKeys r, k ∈ fields) ∧ (∀ f ∈ fields, f ∈ rowKeys r)) := by
  constructor
  · intro h
    simp [processLaterBatch, h]
  · intro h r hr
    simp only [processLaterBatch, h, if_neg, Bool.false_eq_true, not_false_iff,
      List.mem_map] at hr
    obtain ⟨r0, _, rfl⟩ := hr
    exact ⟨keys_normalizeRow_subset fields r0, fields_subset_normalizeRow fields r0⟩

/-- C1 counterexample: with 20 requested rows (2 batches of 10), batch 2's
first row matches the established field set `["a"]`, so the batch is not
reconciled and its second row keeps the extra field `"b"` — a row from a
later batch introduces a field absent from batch 1's fields. -/
theorem c1_counterexample :
    generateMockData c1Parse c1Oracle true "p" 20 =
      .ok ⟨[[("a", CellVal.vnull)], [("a", CellVal.vnull)],
            [("a", CellVal.vnull), ("b", CellVal.vnull)]], ["a"]⟩ ∧
    ¬ (∀ r ∈ [[("a", CellVal.vnull)], [("a", CellVal.vnull), ("b", CellVal.vnull)]],
        ∀ k ∈ rowKeys r, k ∈ (["a"] : List String)) :=
  ⟨rfl, by decide⟩

/-- C1 witness: a mismatching later batch is normalized row by row. -/
theorem c1_witness :
    batchFieldsMatch ["a", "b"] [[("a", CellVal.vstr "1"), ("c", CellVal.vnull)]] = false ∧
    ∀ r ∈ processLaterBatch ["a", "b"] [[("a", CellVal.vstr "1"), ("c", CellVal.vnull)]],
      (∀ k ∈ rowKeys r, k ∈ ["a", "b"]) ∧ ∀ f ∈ ["a", "b"], f ∈ rowKeys r :=
  ⟨by decide,
    (c1_batch_reconciliation ["a", "b"] [[("a", CellVal.vstr "1"), ("c", CellVal.vnull)]]).2
      (by decide)⟩

/-! ## Claim C2: successful generation size and key sets -/

/-- C2 (amended): in the single-call path (validated row count at most 15),
a successful `generateMockData` returns exactly the model's emitted strings
parsed — its length is the number of strings the model returned, which the
code never checks against the requested row count, and no key-set
reconciliation is performed. -/
theorem c2_single_call_passthrough (parseJson : String → Option Row) (oracle : Oracle)
    (prompt : String) (rows : Int) (o : GenObject)
    (hrc : clamp50 rows ≤ 15) (ho : oracle 0 0 = .ok o) (hne : o.data ≠ []) :
    generateMockData parseJson oracle true prompt rows =
      .ok ⟨o.data.map (parseRow parseJson), jsFields o.fields (o.data.map (parseRow parseJson))⟩ ∧
    ∀ res, generateMockData parseJson oracle true prompt rows = .ok res →
      res.data.length = o.data.length := by
  have hlt : ¬ clamp50 rows > 15 := by omega
  have hmain : generateMockData parseJson oracle true prompt rows =
      .ok ⟨o.data.map (parseRow parseJson), jsFields o.fields (o.data.map (parseRow parseJson))⟩ := by
    simp only [generateMockData, Bool.not_true, Bool.false_eq_true, if_false, hlt, if_neg, ho]
    rw [if_neg (by simpa using hne)]
  refine ⟨hmain, fun res hres => ?_⟩
  rw [hmain] at hres
  cases hres
  simp

/-- C2 counterexample: with requested (and validated) row count 3, the model
returns only 2 row strings with `fields = ["name"]`; the call succeeds with
`|data| = 2 ≠ 3` and with rows whose key sets differ from `fields`. -/
theorem c2_counterexample :
    generateMockData (fun _ => none) c2Oracle true "p" 3 = .ok c2Res ∧
    ¬ (c2Res.data.length = 3 ∧ ∀ r ∈ c2Res.data,
        (∀ k ∈ rowKeys r, k ∈ c2Res.fields) ∧ ∀ k ∈ c2Res.fields, k ∈ rowKeys r) :=
  ⟨rfl, by decide⟩

/-- C2 witness: the amended pass-through theorem at the same concrete input. -/
theorem c2_witness :
    generateMockData (fun _ => none) c2Oracle true "p" 3 =
      .ok ⟨["x", "y"].map (parseRow (fun _ => none)),
           jsFields (some ["name"]) (["x", "y"].map (parseRow (fun _ => none)))⟩ :=
  (c2_single_call_passthrough (fun _ => none) c2Oracle "p" 3 ⟨some ["name"], ["x", "y"]⟩
    (by decide) rfl (by decide)).1

/-! ## Claims C3 and C4: row-count validation in the non-streaming POST -/

/-- C3 (amended): for any valid prompt, `rows = 0` is swallowed by the
`parseInt(rows) || 10` default (0 is falsy in JavaScript), so the generator
receives 10 — not the minimum bound 1; `rows = 10000` is clamped to 50. -/
theorem c3_row_clamping (apiKeyPresent : Bool) (dataType : Option String) (p : String)
    (hp : promptValid (some p) = true) (hkey : apiKeyPresent = true) :
    invokedRowCount (generatePOST apiKeyPresent dataType (some p) (.num 0)) = some 10 ∧
    invokedRowCount (generatePOST apiKeyPresent dataType (some p) (.num 10000)) = some 50 := by
  subst hkey
  constructor <;>
  · simp only [generatePOST, hp, Bool.not_true, Bool.false_eq_true, if_false,
      rowCountJS, parseIntJS, jsOrOpt]
    norm_num
    split <;> simp [invokedRowCount]

/-- C3 counterexample: with a valid prompt and `rows = 0` the mock generator
is invoked with row count 10, not the claimed minimum bound 1. -/
theorem c3_counterexample :
    generatePOST true (some "mock") (some "employee records") (RowsField.num 0) =
      .mockInvoked "employee records" 10 ∧
    invokedRowCount
        (generatePOST true (some "mock") (some "employee records") (RowsField.num 0)) ≠
      some 1 :=
  ⟨rfl, by decide⟩

/-- C3 witness: the amended clamping behaviour at a concrete request. -/
theorem c3_witness :
    invokedRowCount (generatePOST true (some "real") (some "solar panel stats") (.num 0)) =
      some 10 ∧
    invokedRowCount (generatePOST true (some "real") (some "solar panel stats") (.num 10000)) =
      some 50 :=
  c3_row_clamping true (some "real") "solar panel stats" (by decide) rfl

/-- C4: the claim describes the intended behaviour (the route even carries a
dead `isNaN(rowCount)` branch answering 400 `Invalid row count`), but the
code computes `parseInt(rows) || 10`, which replaces `NaN` with 10 before the
check, so a non-numeric `rows` never produces a 400: the request proceeds
and the generator is invoked with row count 10. -/
theorem c4_nonnumeric_rows_default :
    parseIntJS (RowsField.str "abc") = none ∧
    generatePOST true (some "real") (some "employee records") (RowsField.str "abc") =
      .realInvoked "employee records" 10 :=
  ⟨rfl, rfl⟩

/-! ## Claim C5: a batch exhausting its retries fails the whole operation -/

/-- If every batch before `i + k` (from `i` on) succeeds and the retry loop
of batch `i + k` fails with `e`, the loop returns that batch's wrapped error
— regardless of the rows already accumulated. -/
theorem batchesGo_error (parseJson : String → Option Row) (oracle : Oracle) (e : String) :
    ∀ (k fuel i : Nat) (acc : List Row) (fs : List String),
      (∀ j, j < k → batchOk oracle (i + j) = true) →
      runBatchAttempts oracle (i + k) = .error e → k < fuel →
      batchesGo parseJson oracle fuel i acc fs = .error (mkBatchError (i + k) e) := by
  intro k
  induction k with
  | zero =>
    intro fuel i acc fs hpre herr hfuel
    match fuel, hfuel with
    | fuel + 1, _ =>
      rw [Nat.add_zero] at herr
      simp [batchesGo, herr]
  | succ k ih =>
    intro fuel i acc fs hpre herr hfuel
    match fuel, hfuel with
    | fuel + 1, hfuel =>
      have h0 := hpre 0 (Nat.succ_pos k)
      rw [Nat.add_zero] at h0
      unfold batchOk at h0
      cases hro : runBatchAttempts oracle i with
      | error e' => rw [hro] at h0; simp at h0
      | ok o =>
        rw [hro] at h0
        simp only [Bool.not_eq_true'] at h0
        have hpre' : ∀ j, j < k → batchOk oracle (i + 1 + j) = true := by
          intro j hj
          have := hpre (j + 1) (by omega)
          rwa [show i + (j + 1) = i + 1 + j by omega] at this
        have herr' : runBatchAttempts oracle (i + 1 + k) = .error e := by
          rwa [show i + 1 + k = i + (k + 1) by omega]
        have hres := ih fuel (i + 1) (acc ++
          (if i == 0 then o.data.map (parseRow parseJson)
           else processLaterBatch fs (o.data.map (parseRow parseJson))))
          (if i == 0 then jsFields o.fields (o.data.map (parseRow parseJson)) else fs)
          hpre' herr' (by omega)
        rw [show i + 1 + k = i + (k + 1) by omega] at hres
        simp only [batchesGo, hro, h0, Bool.false_eq_true, if_false]
        split
        · rename_i hi
          simpa [hi] using hres
        · rename_i hi
          simpa [hi] using hres

/-- C5: if some batch of a batched generation fails its initial attempt and
both retries, the whole call fails with that batch's final error wrapped as
`Failed to generate batch k+1: ...`; being an `error` result, no rows from
earlier successful batches are returned. -/
theorem c5_batch_failure_aborts (parseJson : String → Option Row) (oracle : Oracle)
    (prompt : String) (rows : Int) (k : Nat) (e : String)
    (hrc : 15 < clamp50 rows)
    (hk : k < mockBatchCount prompt (clamp50 rows).toNat)
    (hearlier : ∀ j, j < k → batchOk oracle j = true)
    (h0 : ∃ e0, oracle k 0 = .error e0) (h1 : ∃ e1, oracle k 1 = .error e1)
    (h2 : oracle k 2 = .error e) :
    generateMockData parseJson oracle true prompt rows = .error (mkBatchError k e) := by
  obtain ⟨e0, he0⟩ := h0
  obtain ⟨e1, he1⟩ := h1
  have herr : runBatchAttempts oracle k = .error e := by
    simp [runBatchAttempts, he0, he1, h2]
  have hmain := batchesGo_error parseJson oracle e k
    (mockBatchCount prompt (clamp50 rows).toNat) 0 [] []
    (by simpa using hearlier) (by simpa using herr) hk
  simp only [generateMockData, Bool.not_true, Bool.false_eq_true, if_false, if_pos hrc,
    generateMockDataInBatches]
  simpa using hmain

/-- C5 witness: 20 requested rows, batch 1 succeeds, batch 2 fails all three
attempts with final error `boom`; the whole call fails with batch 2's error
and batch 1's row is not returned. -/
theorem c5_witness :
    generateMockData (fun _ => none) c5Oracle true "p" 20 = .error (mkBatchError 1 "boom") ∧
    mkBatchError 1 "boom" = "Failed to generate batch 2: boom" :=
  ⟨c5_batch_failure_aborts (fun _ => none) c5Oracle "p" 20 1 "boom" (by decide) (by decide)
    (fun j hj => by
      have hj0 : j = 0 := by omega
      subst hj0
      decide)
    ⟨"early", rfl⟩ ⟨"early", rfl⟩ rfl, rfl⟩

/-! ## Claim C6: the classification step never raises and degrades to the heuristic -/

/-- C6: classification is total — with no credential, or whenever the model
call fails, it returns `fallbackCategorization prompt`; and when none of the
heuristic's category needles occurs in the lower-cased prompt, the fallback
yields category `general` with the prompt's words longer than 3 characters
(first 5) as keywords. -/
theorem c6_classifier_fallback (prompt : String) (modelResult : Except String Intent) :
    fetchRealDataClassify false modelResult prompt = fallbackCategorization prompt ∧
    (∀ e, modelResult = .error e →
      fetchRealDataClassify true modelResult prompt = fallbackCategorization prompt) ∧
    (noCategoryKeyword prompt = true →
      fallbackCategorization prompt =
        { category := "general", specificRequest := prompt,
          keywords :=
            (((splitSp prompt.data).filter (fun w => w.length > 3)).take 5).map strOfChars }) := by
  refine ⟨by simp [fetchRealDataClassify],
    fun e he => by simp [fetchRealDataClassify, he], fun h => ?_⟩
  simp only [noCategoryKeyword, categoryNeedles, List.all_cons, List.all_nil,
    Bool.and_eq_true, Bool.not_eq_true'] at h
  obtain ⟨h1, h2, h3, h4, h5, h6, h7, h8, h9, h10, h11, h12, h13, h14, h15, -⟩ := h
  simp [fallbackCategorization, h1, h2, h3, h4, h5, h6, h7, h8, h9, h10, h11, h12, h13, h14, h15]

/-- C6 witness: a prompt matching no category needle, classified with a
failing model call, yields the general-category fallback intent. -/
theorem c6_witness :
    fetchRealDataClassify true (.error "model down") "purple elephants dancing quickly" =
      fallbackCategorization "purple elephants dancing quickly" ∧
    fallbackCategorization "purple elephants dancing quickly" =
      { category := "general", specificRequest := "purple elephants dancing quickly",
        keywords :=
          (((splitSp "purple elephants dancing quickly".data).filter
            (fun w => w.length > 3)).take 5).map strOfChars } :=
  ⟨(c6_classifier_fallback "purple elephants dancing quickly" (.error "model down")).2.1
      "model down" rfl,
    (c6_classifier_fallback "purple elephants dancing quickly" (.error "model down")).2.2
      (by decide)⟩

/-! ## Claims C8 and C9: the download endpoint -/

/-- C8: a download request with absent or empty `data` is rejected with 400
and the exact error `No data to download`; no file payload is produced. -/
theorem c8_empty_download_rejected :
    ∀ (format prompt : Option String),
      downloadPOST ⟨none, format, prompt⟩ = .jsonError 400 "No data to download" ∧
      downloadPOST ⟨some [], format, prompt⟩ = .jsonError 400 "No data to download" := by
  intro format prompt
  exact ⟨rfl, rfl⟩

/-- C9: any format other than `json` and `csv` (absent or misspelled
included) is never rejected — it falls to the default branch, which returns
exactly the same CSV-encoded content as the `csv` branch but with the Excel
spreadsheet content type and a `.xlsx` filename. -/
theorem c9_default_format_excel (rows : List Row) (format prompt : Option String)
    (hne : rows ≠ []) (hj : format ≠ some "json") (hc : format ≠ some "csv") :
    downloadPOST ⟨some rows, format, prompt⟩ =
      .file (csvContent rows) excelContentType (sanitizePrompt prompt ++ ".xlsx") ∧
    downloadPOST ⟨some rows, some "csv", prompt⟩ =
      .file (csvContent rows) "text/csv" (sanitizePrompt prompt ++ ".csv") := by
  have hlen : (rows.length == 0) = false := by
    simpa using hne
  constructor
  · simp only [downloadPOST, hlen, Bool.false_eq_true, if_false]
    rw [if_neg (by simpa using hj), if_neg (by simpa using hc)]
  · simp [downloadPOST, hlen]

/-- C9 witness: the default branch at a concrete request with format `excel`. -/
theorem c9_witness :
    downloadPOST ⟨some [[("a", CellVal.vstr "1")]], some "excel", none⟩ =
      .file (csvContent [[("a", CellVal.vstr "1")]]) excelContentType
        (sanitizePrompt none ++ ".xlsx") ∧
    downloadPOST ⟨some [[("a", CellVal.vstr "1")]], some "csv", none⟩ =
      .file (csvContent [[("a", CellVal.vstr "1")]]) "text/csv"
        (sanitizePrompt none ++ ".csv") :=
  c9_default_format_excel [[("a", CellVal.vstr "1")]] (some "excel") none
    (by decide) (by decide) (by decide)

/-! ## Claim C10: streaming-mode resilience to batch failures -/

/-- C10: in the streaming mock path with a valid prompt, the response status
is the `Response` default 200; the event list is `started`, one event per
batch, then `completed` — its length is the batch count plus 2 no matter how
many batches fail, the last event is always `completed`, and a batch whose
inner generation fails contributes a `batch_error` event at its position
while the loop continues.  In particular a stream in which every batch fails
still ends with `completed` and delivers zero data rows. -/
theorem c10_stream_resilience (parseJson : String → Option Row) (orc : Nat → Oracle)
    (realResult : Except String RealDataResult) (apiKeyPresent : Bool)
    (p : String) (rows : RowsField) (hp : promptValid (some p) = true) :
    streamStatus (handleStreamingRequest parseJson orc realResult apiKeyPresent
      (some "mock") (some p) rows) = 200 ∧
    streamEvents (handleStreamingRequest parseJson orc realResult apiKeyPresent
        (some "mock") (some p) rows) =
      .started (rowCountStream rows) ::
        (streamMockDataGeneration parseJson orc apiKeyPresent p (rowCountStream rows).toNat ++
          [.completed]) ∧
    (streamEvents (handleStreamingRequest parseJson orc realResult apiKeyPresent
        (some "mock") (some p) rows)).length =
      mockStreamBatchCount (rowCountStream rows).toNat + 2 ∧
    (streamEvents (handleStreamingRequest parseJson orc realResult apiKeyPresent
        (some "mock") (some p) rows)).getLast? = some .completed ∧
    ∀ i m, i < mockStreamBatchCount (rowCountStream rows).toNat →
      generateMockData parseJson (orc i) apiKeyPresent p
          (streamCurrentBatchSize (rowCountStream rows).toNat i : Int) = .error m →
      (streamEvents (handleStreamingRequest parseJson orc realResult apiKeyPresent
          (some "mock") (some p) rows))[i + 1]? = some (.batchError (i + 1) m) := by
  have hout : handleStreamingRequest parseJson orc realResult apiKeyPresent
      (some "mock") (some p) rows =
      .stream 200 (.started (rowCountStream rows) ::
        (streamMockDataGeneration parseJson orc apiKeyPresent p (rowCountStream rows).toNat ++
          [.completed])) := by
    simp [handleStreamingRequest, hp]
  rw [hout]
  refine ⟨rfl, rfl, ?_, ?_, ?_⟩
  · simp [streamEvents, streamMockDataGeneration]
  · simp only [streamEvents]
    rw [← List.cons_append, List.getLast?_concat]
  · intro i m hi hgen
    have hilen : i < (streamMockDataGeneration parseJson orc apiKeyPresent p
        (rowCountStream rows).toNat).length := by
      simpa [streamMockDataGeneration] using hi
    simp only [streamEvents, List.getElem?_cons_succ]
    rw [List.getElem?_append_left hilen]
    simp only [streamMockDataGeneration, List.getElem?_map,
      List.getElem?_range hi]
    simp [hgen]

/-- C10 witness: 7 requested rows (2 streaming batches), every inner model
call failing; the stream still reports status 200, four events ending in
`completed`, and one `batch_error` per failed batch — zero data rows. -/
theorem c10_witness :
    streamStatus (handleStreamingRequest (fun _ => none) c10Orc (.error "down") true
      (some "mock") (some "hello") (.num 7)) = 200 ∧
    (streamEvents (handleStreamingRequest (fun _ => none) c10Orc (.error "down") true
        (some "mock") (some "hello") (.num 7))).length = 4 ∧
    (streamEvents (handleStreamingRequest (fun _ => none) c10Orc (.error "down") true
        (some "mock") (some "hello") (.num 7))).getLast? = some .completed ∧
    (streamEvents (handleStreamingRequest (fun _ => none) c10Orc (.error "down") true
        (some "mock") (some "hello") (.num 7)))[1]? =
      some (.batchError 1 "Mock data generation failed: b0") ∧
    (streamEvents (handleStreamingRequest (fun _ => none) c10Orc (.error "down") true
        (some "mock") (some "hello") (.num 7)))[2]? =
      some (.batchError 2 "Mock data generation failed: b1") := by
  have h := c10_stream_resilience (fun _ => none) c10Orc (.error "down") true "hello"
    (.num 7) (by decide)
  obtain ⟨hs, -, hlen, hlast, hidx⟩ := h
  refine ⟨hs, by simpa using hlen, hlast,
    hidx 0 "Mock data generation failed: b0" (by decide) rfl,
    hidx 1 "Mock data generation failed: b1" (by decide) rfl⟩

/-! ## Claim C7: CSV round-trip through a standard reader -/

/-- Does the input begin where a field may end (a delimiter or the end)? -/
def fieldEndAt : List Char → Bool
  | [] => true
  | c :: _ => c == ',' || c == '\n'

theorem headIsQuote_fieldEnd (l : List Char) (h : fieldEndAt l = true) :
    headIsQuote l = false := by
  cases l with
  | nil => rfl
  | cons c t =>
    simp only [fieldEndAt, Bool.or_eq_true, beq_iff_eq] at h
    rcases h with h | h <;> subst h <;> rfl

theorem pqGo_true_fieldEnd (l : List Char) (h : fieldEndAt l = true) :
    pqGo true l = ([], l) := by
  cases l with
  | nil => rfl
  | cons c t =>
    simp only [fieldEndAt, Bool.or_eq_true, beq_iff_eq] at h
    rcases h with h | h <;> subst h <;> simp [pqGo]

theorem pqGo_false_quote (t : List Char) : pqGo false ('"' :: t) = pqGo true t := by
  simp [pqGo]

theorem pqGo_false_nonquote (c : Char) (t : List Char) (hc : (c == '"') = false) :
    pqGo false (c :: t) = ((c :: (pqGo false t).1), (pqGo false t).2) := by
  simp [pqGo, hc]

theorem pqGo_true_quote (t : List Char) :
    pqGo true ('"' :: t) = (('"' :: (pqGo false t).1), (pqGo false t).2) := by
  simp [pqGo]

theorem pqGo_escape (s rest : List Char) (h : headIsQuote rest = false) :
    pqGo false (escQuotesL s ++ '"' :: rest) = (s, rest) := by
  induction s with
  | nil =>
    have hin : escQuotesL [] ++ '"' :: rest = '"' :: rest := by simp [escQuotesL]
    rw [hin, pqGo_false_quote]
    cases rest with
    | nil => rfl
    | cons c t =>
      have hc : (c == '"') = false := by simpa [headIsQuote] using h
      simp [pqGo, hc]
  | cons c s ih =>
    by_cases hc : c = '"'
    · subst hc
      have hin : escQuotesL ('"' :: s) ++ '"' :: rest =
          '"' :: '"' :: (escQuotesL s ++ '"' :: rest) := by
        simp [escQuotesL]
      rw [hin, pqGo_false_quote, pqGo_true_quote, ih]
    · have hcb : (c == '"') = false := by simpa using hc
      have hin : escQuotesL (c :: s) ++ '"' :: rest =
          c :: (escQuotesL s ++ '"' :: rest) := by
        simp [escQuotesL, hc]
      rw [hin, pqGo_false_nonquote c _ hcb, ih]

theorem parseUnquoted_fieldEnd (l : List Char) (h : fieldEndAt l = true) :
    parseUnquoted l = ([], l) := by
  cases l with
  | nil => rfl
  | cons c t =>
    simp only [fieldEndAt] at h
    simp [parseUnquoted, h]

theorem parseField_quoted (content rest : List Char) (h : fieldEndAt rest = true) :
    parseField ('"' :: (escQuotesL content ++ '"' :: rest)) = (content, rest) := by
  have hq : headIsQuote rest = false := headIsQuote_fieldEnd rest h
  have h1 : headIsQuote ('"' :: (escQuotesL content ++ '"' :: rest)) = true := rfl
  unfold parseField
  simp only [h1, if_true, List.tail_cons]
  rw [show parseQuoted (escQuotesL content ++ '"' :: rest) = (content, rest) from
    pqGo_escape content rest hq]
  rw [parseUnquoted_fieldEnd rest h]
  simp

/-- Parsing one written CSV cell recovers exactly the rendered value. -/
theorem parseField_cell (v : CellVal) (rest : List Char) (h : fieldEndAt rest = true) :
    parseField (csvCellL v ++ rest) = ((renderCell v).data, rest) := by
  have hq : headIsQuote rest = false := headIsQuote_fieldEnd rest h
  cases v with
  | vnull =>
    have h1 : headIsQuote ('"' :: '"' :: rest) = true := rfl
    show parseField ('"' :: '"' :: rest) = ([], rest)
    unfold parseField
    simp only [h1, if_true, List.tail_cons]
    rw [show parseQuoted ('"' :: rest) = pqGo true rest from by simp [parseQuoted, pqGo]]
    rw [pqGo_true_fieldEnd rest h, parseUnquoted_fieldEnd rest h]
    rfl
  | vundef =>
    have h1 : headIsQuote ('"' :: '"' :: rest) = true := rfl
    show parseField ('"' :: '"' :: rest) = ([], rest)
    unfold parseField
    simp only [h1, if_true, List.tail_cons]
    rw [show parseQuoted ('"' :: rest) = pqGo true rest from by simp [parseQuoted, pqGo]]
    rw [pqGo_true_fieldEnd rest h, parseUnquoted_fieldEnd rest h]
    rfl
  | vstr s =>
    have := parseField_quoted (jsString (CellVal.vstr s)).data rest h
    simpa [csvCellL, renderCell, List.cons_append, List.append_assoc] using this
  | vint n =>
    have := parseField_quoted (jsString (CellVal.vint n)).data rest h
    simpa [csvCellL, renderCell, List.cons_append, List.append_assoc] using this
  | vbool b =>
    have := parseField_quoted (jsString (CellVal.vbool b)).data rest h
    simpa [csvCellL, renderCell, List.cons_append, List.append_assoc] using this

/-- Parsing one written data line (followed by a newline and more input, or
standing last) recovers the row's rendered cells. -/
theorem parseRecord_rowLine (r : Row) (hr : r ≠ []) :
    (∀ t, parseRecord (rowLineL r ++ '\n' :: t) = (renderRowL r, some t)) ∧
    parseRecord (rowLineL r) = (renderRowL r, none) := by
  induction r with
  | nil => exact absurd rfl hr
  | cons p q ih =>
    cases q with
    | nil =>
      have hone : rowLineL [p] = csvCellL p.2 := rfl
      constructor
      · intro t
        have hf : parseField (rowLineL [p] ++ '\n' :: t) =
            ((renderCell p.2).data, '\n' :: t) := by
          rw [hone]
          exact parseField_cell p.2 ('\n' :: t) (by rfl)
        rw [parseRecord]
        split
        · rename_i t' heq
          rw [hf] at heq
          simp at heq
        · rename_i t' heq
          rw [hf] at heq
          simp only [Prod.snd, List.cons.injEq] at heq
          obtain ⟨-, heq2⟩ := heq
          subst heq2
          rw [hf]
          rfl
        · rename_i hne1 hne2
          exact (hne2 t (by rw [hf])).elim
      · have hf : parseField (rowLineL [p]) = ((renderCell p.2).data, []) := by
          have h0 := parseField_cell p.2 [] (by rfl)
          rw [hone]
          simpa using h0
        rw [parseRecord]
        split
        · rename_i t' heq
          rw [hf] at heq
          simp at heq
        · rename_i t' heq
          rw [hf] at heq
          simp at heq
        · rw [hf]
          rfl
    | cons p2 q2 =>
      have hsplit : rowLineL (p :: p2 :: q2) = csvCellL p.2 ++ ',' :: rowLineL (p2 :: q2) := rfl
      have ihq := ih (by simp)
      constructor
      · intro t
        have hf : parseField (rowLineL (p :: p2 :: q2) ++ '\n' :: t) =
            ((renderCell p.2).data, ',' :: (rowLineL (p2 :: q2) ++ '\n' :: t)) := by
          rw [hsplit, List.append_assoc, List.cons_append]
          exact parseField_cell p.2 (',' :: (rowLineL (p2 :: q2) ++ '\n' :: t)) (by rfl)
        rw [parseRecord]
        split
        · rename_i t' heq
          rw [hf] at heq
          simp only [Prod.snd, List.cons.injEq] at heq
          obtain ⟨-, heq2⟩ := heq
          subst heq2
          simp only [hf, ihq.1 t]
          simp [renderRowL]
        · rename_i t' heq
          rw [hf] at heq
          simp at heq
        · rename_i hne1 hne2
          exact (hne1 (rowLineL (p2 :: q2) ++ '\n' :: t) (by rw [hf])).elim
      · have hf : parseField (rowLineL (p :: p2 :: q2)) =
            ((renderCell p.2).data, ',' :: rowLineL (p2 :: q2)) := by
          rw [hsplit]
          exact parseField_cell p.2 (',' :: rowLineL (p2 :: q2)) (by rfl)
        rw [parseRecord]
        split
        · rename_i t' heq
          rw [hf] at heq
          simp only [Prod.snd, List.cons.injEq] at heq
          obtain ⟨-, heq2⟩ := heq
          subst heq2
          simp only [hf, ihq.2]
          simp [renderRowL]
        · rename_i t' heq
          rw [hf] at heq
          simp at heq
        · rename_i hne1 hne2
          exact (hne1 (rowLineL (p2 :: q2)) (by rw [hf])).elim

theorem parseUnquoted_name (nm rest : List Char)
    (hnm : ∀ c ∈ nm, (c == ',') = false ∧ (c == '\n') = false)
    (hrest : fieldEndAt rest = true) :
    parseUnquoted (nm ++ rest) = (nm, rest) := by
  induction nm with
  | nil => simpa using parseUnquoted_fieldEnd rest hrest
  | cons c t ih =>
    have hc := hnm c (by simp)
    have ht : ∀ c ∈ t, (c == ',') = false ∧ (c == '\n') = false :=
      fun c hcm => hnm c (by simp [hcm])
    simp only [List.cons_append, parseUnquoted, hc.1, hc.2, Bool.or_self,
      Bool.false_eq_true, if_false]
    simp [ih ht]

theorem parseField_name (nm rest : List Char)
    (hnm : ∀ c ∈ nm, (c == '"') = false ∧ (c == ',') = false ∧ (c == '\n') = false)
    (hrest : fieldEndAt rest = true) :
    parseField (nm ++ rest) = (nm, rest) := by
  have hq : headIsQuote (nm ++ rest) = false := by
    cases nm with
    | nil => simpa using headIsQuote_fieldEnd rest hrest
    | cons c t => simpa [headIsQuote] using (hnm c (by simp)).1
  unfold parseField
  rw [hq]
  simp only [Bool.false_eq_true, if_false]
  exact parseUnquoted_name nm rest (fun c hc => (hnm c hc).2) hrest

theorem goodKey_chars (k : String) (h : goodKey k = true) :
    ∀ c ∈ k.data, (c == '"') = false ∧ (c == ',') = false ∧ (c == '\n') = false := by
  intro c hc
  simp only [goodKey, List.all_eq_true] at h
  have := h c hc
  simp only [Bool.and_eq_true, Bool.not_eq_true'] at this
  exact ⟨this.1.1, this.1.2, this.2⟩

/-- Parsing the written (unquoted) header line recovers the field names,
provided none contains a quote, comma, or newline. -/
theorem parseRecord_headerLine (ks : List String) (hks : ks ≠ [])
    (hgood : ∀ k ∈ ks, goodKey k = true) :
    (∀ t, parseRecord (joinWith ',' (ks.map String.data) ++ '\n' :: t) =
      (ks.map String.data, some t)) ∧
    parseRecord (joinWith ',' (ks.map String.data)) = (ks.map String.data, none) := by
  induction ks with
  | nil => exact absurd rfl hks
  | cons k q ih =>
    have hk := goodKey_chars k (hgood k (by simp))
    cases q with
    | nil =>
      have hone : joinWith ',' ([k].map String.data) = k.data := rfl
      constructor
      · intro t
        have hf : parseField (joinWith ',' ([k].map String.data) ++ '\n' :: t) =
            (k.data, '\n' :: t) := by
          rw [hone]
          exact parseField_name k.data ('\n' :: t) hk (by rfl)
        rw [parseRecord]
        split
        · rename_i t' heq
          rw [hf] at heq
          simp at heq
        · rename_i t' heq
          rw [hf] at heq
          simp only [Prod.snd, List.cons.injEq] at heq
          obtain ⟨-, heq2⟩ := heq
          subst heq2
          rw [hf]
          rfl
        · rename_i hne1 hne2
          exact (hne2 t (by rw [hf])).elim
      · have hf : parseField (joinWith ',' ([k].map String.data)) = (k.data, []) := by
          have h0 := parseField_name k.data [] hk (by rfl)
          rw [hone]
          simpa using h0
        rw [parseRecord]
        split
        · rename_i t' heq
          rw [hf] at heq
          simp at heq
        · rename_i t' heq
          rw [hf] at heq
          simp at heq
        · rw [hf]
          rfl
    | cons k2 q2 =>
      have hsplit : joinWith ',' ((k :: k2 :: q2).map String.data) =
          k.data ++ ',' :: joinWith ',' ((k2 :: q2).map String.data) := rfl
      have ihq := ih (by simp) (fun k' hk' => hgood k' (by simp [hk']))
      constructor
      · intro t
        have hf : parseField (joinWith ',' ((k :: k2 :: q2).map String.data) ++ '\n' :: t) =
            (k.data, ',' :: (joinWith ',' ((k2 :: q2).map String.data) ++ '\n' :: t)) := by
          rw [hsplit, List.append_assoc, List.cons_append]
          exact parseField_name k.data
            (',' :: (joinWith ',' ((k2 :: q2).map String.data) ++ '\n' :: t)) hk (by rfl)
        rw [parseRecord]
        split
        · rename_i t' heq
          rw [hf] at heq
          simp only [Prod.snd, List.cons.injEq] at heq
          obtain ⟨-, heq2⟩ := heq
          subst heq2
          simp only [hf, ihq.1 t]
          simp
        · rename_i t' heq
          rw [hf] at heq
          simp at heq
        · rename_i hne1 hne2
          exact (hne1 (joinWith ',' ((k2 :: q2).map String.data) ++ '\n' :: t) (by rw [hf])).elim
      · have hf : parseField (joinWith ',' ((k :: k2 :: q2).map String.data)) =
            (k.data, ',' :: joinWith ',' ((k2 :: q2).map String.data)) := by
          rw [hsplit]
          exact parseField_name k.data
            (',' :: joinWith ',' ((k2 :: q2).map String.data)) hk (by rfl)
        rw [parseRecord]
        split
        · rename_i t' heq
          rw [hf] at heq
          simp only [Prod.snd, List.cons.injEq] at heq
          obtain ⟨-, heq2⟩ := heq
          subst heq2
          simp only [hf, ihq.2]
          simp
        · rename_i t' heq
          rw [hf] at heq
          simp at heq
        · rename_i hne1 hne2
          exact (hne1 (joinWith ',' ((k2 :: q2).map String.data)) (by rw [hf])).elim

/-- The contract between one written line and the record a reader recovers
from it. -/
def RecordParses (line : List Char) (rec : List (List Char)) : Prop :=
  (∀ t, parseRecord (line ++ '\n' :: t) = (rec, some t)) ∧ parseRecord line = (rec, none)

theorem strOfChars_data (s : String) : strOfChars s.data = s := rfl

theorem parseCsvRecords_join (ps : List (List Char × List (List Char))) (hne : ps ≠ [])
    (hall : ∀ p ∈ ps, RecordParses p.1 p.2) :
    parseCsvRecords (joinWith '\n' (ps.map Prod.fst)) = ps.map Prod.snd := by
  induction ps with
  | nil => exact absurd rfl hne
  | cons x q ih =>
    have hx := hall x (by simp)
    cases q with
    | nil =>
      have hone : joinWith '\n' ([x].map Prod.fst) = x.1 := rfl
      rw [hone, parseCsvRecords]
      split
      · rename_i heq
        rw [hx.2]
        rfl
      · rename_i t' heq
        rw [hx.2] at heq
        simp at heq
    | cons y q2 =>
      have hsplit : joinWith '\n' ((x :: y :: q2).map Prod.fst) =
          x.1 ++ '\n' :: joinWith '\n' ((y :: q2).map Prod.fst) := rfl
      have ihq := ih (by simp) (fun p hp => hall p (by simp at hp ⊢; tauto))
      rw [hsplit, parseCsvRecords]
      split
      · rename_i heq
        rw [hx.1 (joinWith '\n' ((y :: q2).map Prod.fst))] at heq
        simp at heq
      · rename_i t' heq
        rw [hx.1 (joinWith '\n' ((y :: q2).map Prod.fst))] at heq
        simp only [Prod.snd, Option.some.injEq] at heq
        subst heq
        rw [hx.1 (joinWith '\n' ((y :: q2).map Prod.fst))]
        simp only [ihq]
        rfl

/-- C7 (amended): for a non-empty row set whose shared ordered key set is
non-empty and whose field names contain no double quote, comma, or newline
(the header line is written unquoted), the CSV payload of the download
endpoint is loss-less: a standard CSV reader recovers the header fields and
then, for every row, exactly the string rendering of each value
(null/undefined as the empty string) — including values containing commas,
quotes, and newlines. -/
theorem c7_csv_roundtrip (ks : List String) (rows : List Row)
    (hks : ks ≠ []) (hrows : rows ≠ [])
    (hkeys : ∀ r ∈ rows, rowKeys r = ks)
    (hgood : ∀ k ∈ ks, goodKey k = true) :
    parseCsv (csvContent rows) = ks :: rows.map renderRow := by
  obtain ⟨r0, rows', rfl⟩ : ∃ r0 rows', rows = r0 :: rows' := by
    cases rows with
    | nil => exact absurd rfl hrows
    | cons a b => exact ⟨a, b, rfl⟩
  have hkeys0 : rowKeys r0 = ks := hkeys r0 (by simp)
  have hheader : headerL (r0 :: rows') = joinWith ',' (ks.map String.data) := by
    have : r0.map (fun p => p.1.data) = ks.map String.data := by
      rw [← hkeys0]
      simp [rowKeys, List.map_map]
    simp [headerL, this]
  have hrowne : ∀ r ∈ r0 :: rows', r ≠ [] := by
    intro r hr hnil
    have := hkeys r hr
    rw [hnil] at this
    simp [rowKeys] at this
    exact hks this
  have hall : ∀ p ∈ ((headerL (r0 :: rows'), ks.map String.data) ::
      (r0 :: rows').map (fun r => (rowLineL r, renderRowL r))), RecordParses p.1 p.2 := by
    intro p hp
    rcases List.mem_cons.mp hp with hph | hpr
    · subst hph
      have hh := parseRecord_headerLine ks hks hgood
      exact ⟨fun t => by rw [hheader]; exact hh.1 t, by rw [hheader]; exact hh.2⟩
    · obtain ⟨r, hr, rfl⟩ := List.mem_map.mp hpr
      exact parseRecord_rowLine r (hrowne r hr)
  have hjoin : (csvContent (r0 :: rows')).data =
      joinWith '\n' (((headerL (r0 :: rows'), ks.map String.data) ::
        (r0 :: rows').map (fun r => (rowLineL r, renderRowL r))).map Prod.fst) := by
    simp [csvContent, strOfChars, List.map_map]
    rfl
  have hparse := parseCsvRecords_join
    ((headerL (r0 :: rows'), ks.map String.data) ::
      (r0 :: rows').map (fun r => (rowLineL r, renderRowL r)))
    (by simp) hall
  have h2 : ∀ r : Row, List.map strOfChars (renderRowL r) = renderRow r := by
    intro r
    simp [renderRowL, renderRow, List.map_map, Function.comp, strOfChars_data]
  unfold parseCsv
  rw [hjoin, hparse]
  simp only [List.map_cons, List.map_map]
  rw [show List.map (strOfChars ∘ String.data) ks = ks from by
    rw [show strOfChars ∘ String.data = id from funext (fun s => strOfChars_data s),
      List.map_id], h2 r0]
  congr 2
  exact List.map_congr_left (fun r _ => h2 r)

/-- The single-row row set whose field name starts with a double quote. -/
def c7BadRows : List Row := [[("\"a", CellVal.vstr "v")]]

/-- A two-row set with values containing commas, quotes, and newlines. -/
def c7Rows : List Row :=
  [[("a", CellVal.vstr "x,\"y\"\nz"), ("b", CellVal.vnull)],
   [("a", CellVal.vint 5), ("b", CellVal.vbool true)]]

/-- C7 counterexample: a field name beginning with a double quote makes the
unquoted header line open a quoted region, so the reader runs the header and
the data line together into the single field `a\nv"` — the value `v` of the
(non-empty, key-set-sharing) row is not recovered anywhere in the parse. -/
theorem c7_counterexample :
    (∀ r ∈ c7BadRows, rowKeys r = ["\"a"]) ∧ c7BadRows ≠ [] ∧
    parseCsv (csvContent c7BadRows) = [["a\nv\""]] ∧
    ¬ ["v"] ∈ parseCsv (csvContent c7BadRows) := by
  have hdata : (csvContent c7BadRows).data = ['"', 'a', '\n', '"', 'v', '"'] := rfl
  have hf : parseField ['"', 'a', '\n', '"', 'v', '"'] = (['a', '\n', 'v', '"'], []) := rfl
  have hr : parseRecord ['"', 'a', '\n', '"', 'v', '"'] = ([['a', '\n', 'v', '"']], none) := by
    rw [parseRecord]
    split
    · rename_i t heq
      rw [hf] at heq
      simp at heq
    · rename_i t heq
      rw [hf] at heq
      simp at heq
    · rw [hf]
  have hcr : parseCsvRecords ['"', 'a', '\n', '"', 'v', '"'] = [[['a', '\n', 'v', '"']]] := by
    rw [parseCsvRecords]
    split
    · rename_i heq
      rw [hr]
    · rename_i t heq
      rw [hr] at heq
      simp at heq
  have hcsv : parseCsv (csvContent c7BadRows) = [["a\nv\""]] := by
    unfold parseCsv
    rw [hdata, hcr]
    decide
  refine ⟨by decide, by decide, hcsv, ?_⟩
  rw [hcsv]
  decide

/-- C7 witness: the amended round-trip theorem at a concrete row set whose
values contain commas, quotes, and newlines, plus a null. -/
theorem c7_witness :
    parseCsv (csvContent c7Rows) = ["a", "b"] :: c7Rows.map renderRow ∧
    c7Rows.map renderRow = [["x,\"y\"\nz", ""], ["5", "true"]] :=
  ⟨c7_csv_roundtrip ["a", "b"] c7Rows (by decide) (by decide) (by decide) (by decide),
    by decide⟩
